import Mathlib

set_option maxRecDepth 4000

/-!
Verification of the Game of Life grid engine (`src/lib.rs`).

The Rust module is shallowly embedded: the `Cell` enum and the `Universe`
struct become Lean inductive/structure types, `u32`/`usize` values become
`Nat` (no arithmetic in the verified claims approaches the 32-bit wrap),
and the `Vec<Cell>` buffer becomes a `List Cell`.  Rust's panicking index
operator is modelled in two ways: operations whose claims concern the
out-of-bounds fault (`toggle_cell`, `set_cells`, and their wrappers) return
`Option Universe`, `none` standing for the panic; operations that are only
ever exercised on indices proved in range (`tick`, `gen_pulsar`,
`live_neighbor_count`) read with `List.getD _ Cell.Dead` and write with
`List.set`, which agree with the source wherever the index is in range.
-/

namespace GameOfLife

/-- The two-valued cell state, `#[repr(u8)] enum Cell { Dead = 0, Alive = 1 }`. -/
inductive Cell : Type
  | Dead : Cell
  | Alive : Cell
deriving DecidableEq, Repr

/-- The `u8` value of a cell under `#[repr(u8)]`: `Dead = 0`, `Alive = 1`
(the `self.cells[idx] as u8` coercion used by neighbor counting). -/
def Cell.toNat : Cell → Nat
  | Cell.Dead => 0
  | Cell.Alive => 1

/-- `Cell::toggle`: flips `Dead ↔ Alive`. -/
def Cell.toggle : Cell → Cell
  | Cell.Dead => Cell.Alive
  | Cell.Alive => Cell.Dead

/-- The `Universe` struct: width, height and the flat row-major cell buffer. -/
structure Universe : Type where
  width : Nat
  height : Nat
  cells : List Cell
deriving DecidableEq, Repr

/-- `Universe::get_index`: flat row-major index `row * width + column`. -/
def Universe.get_index (u : Universe) (row column : Nat) : Nat :=
  row * u.width + column

/-- `Universe::get_row`: `index / width`. -/
def Universe.get_row (u : Universe) (index : Nat) : Nat :=
  index / u.width

/-- `Universe::get_col`: `index % width`. -/
def Universe.get_col (u : Universe) (index : Nat) : Nat :=
  index % u.width

/-- `Universe::set_cells`: force each listed `(row, col)` to `Alive` in order.
A flat index that falls outside the buffer makes the Rust `Vec` index panic,
modelled by `none`. -/
def Universe.set_cells (u : Universe) (cells : List (Nat × Nat)) : Option Universe :=
  cells.foldlM (fun acc p =>
    let idx := acc.get_index p.1 p.2
    if idx < acc.cells.length then
      some { acc with cells := acc.cells.set idx Cell.Alive }
    else
      none) u

/-- `Universe::gen_spaceship`: stamp the five fixed spaceship offsets via
`set_cells`. -/
def Universe.gen_spaceship (u : Universe) (row col : Nat) : Option Universe :=
  u.set_cells [(row + 1, col + 2), (row + 2, col + 3),
               (row + 3, col + 1), (row + 3, col + 2), (row + 3, col + 3)]

/-- `Universe::live_neighbor_count`: iterate `delta_row` over
`[height - 1, 0, 1]` and `delta_col` over `[width - 1, 0, 1]`, skip the
`(0, 0)` delta by value, and sum the `u8` values of the wrapped neighbors. -/
def Universe.live_neighbor_count (u : Universe) (row column : Nat) : Nat :=
  [u.height - 1, 0, 1].foldl (fun count delta_row =>
    [u.width - 1, 0, 1].foldl (fun count delta_col =>
      if delta_row = 0 ∧ delta_col = 0 then count
      else
        let neighbor_row := (row + delta_row) % u.height
        let neighbor_col := (column + delta_col) % u.width
        let idx := u.get_index neighbor_row neighbor_col
        count + (u.cells.getD idx Cell.Dead).toNat) count) 0

/-- The cell written by `Universe::gen_pulsar` at local offset `(row, col)`
of the 13×13 bounding box: rows 1/6/11 are killed, rows 0/5/7/12 are born
at columns 2–4 and 8–10 and killed elsewhere, the remaining rows are born
at columns 0/5/7/12 and killed elsewhere (the branch structure of the
source's inner loop body, each branch being a `kill`/`birth` write). -/
def pulsarCell (row col : Nat) : Cell :=
  if row = 1 ∨ row = 6 ∨ row = 11 then Cell.Dead
  else if row = 0 ∨ row = 5 ∨ row = 7 ∨ row = 12 then
    if (2 ≤ col ∧ col ≤ 4) ∨ (8 ≤ col ∧ col ≤ 10) then Cell.Alive else Cell.Dead
  else
    if col = 0 ∨ col = 5 ∨ col = 7 ∨ col = 12 then Cell.Alive else Cell.Dead

/-- `Universe::gen_pulsar`: compute the top-left corner `(row − 6, col − 6)`
of the 13×13 box from the clicked flat `index`, and write `pulsarCell` at
every local offset `(row, col)` of the box, at flat index
`corner + row * width + col`. -/
def Universe.gen_pulsar (u : Universe) (index : Nat) : Universe :=
  let start_row := u.get_row index - 6
  let start_col := u.get_col index - 6
  let index := u.get_index start_row start_col
  { u with cells := (List.range 13).foldl (fun cs row =>
      (List.range 13).foldl (fun cs col =>
        cs.set (index + row * u.width + col) (pulsarCell row col)) cs) u.cells }

/-- `Universe::new`: the 64×64 universe seeded `Alive` at every flat index
`i` with `i % 2 == 0 || i % 7 == 0`. -/
def Universe.new : Universe :=
  { width := 64
    height := 64
    cells := (List.range (64 * 64)).map (fun i =>
      if i % 2 = 0 ∨ i % 7 = 0 then Cell.Alive else Cell.Dead) }

/-- `Universe::set_width`: update the width and reallocate an all-`Dead`
buffer of size `width * height`. -/
def Universe.set_width (u : Universe) (width : Nat) : Universe :=
  { u with width := width
           cells := (List.range (width * u.height)).map (fun _ => Cell.Dead) }

/-- `Universe::set_height`: update the height and reallocate an all-`Dead`
buffer of size `width * height`. -/
def Universe.set_height (u : Universe) (height : Nat) : Universe :=
  { u with height := height
           cells := (List.range (u.width * height)).map (fun _ => Cell.Dead) }

/-- `Universe::kill_all`: reallocate an all-`Dead` buffer at the current
dimensions. -/
def Universe.kill_all (u : Universe) : Universe :=
  { u with cells := (List.range (u.width * u.height)).map (fun _ => Cell.Dead) }

/-- `Universe::toggle_cell`: flip the cell at `(row, column)`; an
out-of-range flat index panics (`none`). -/
def Universe.toggle_cell (u : Universe) (row column : Nat) : Option Universe :=
  let idx := u.get_index row column
  if h : idx < u.cells.length then
    some { u with cells := u.cells.set idx (u.cells.get ⟨idx, h⟩).toggle }
  else
    none

/-- `Universe::add_pulsar`: stamp a pulsar around the clicked cell. -/
def Universe.add_pulsar (u : Universe) (row column : Nat) : Universe :=
  u.gen_pulsar (u.get_index row column)

/-- `Universe::add_spaceship`: stamp a spaceship at the clicked cell. -/
def Universe.add_spaceship (u : Universe) (row column : Nat) : Option Universe :=
  u.gen_spaceship row column

/-- The `match (cell, live_neighbors)` expression at the heart of
`Universe::tick`: underpopulation, stability, overpopulation, birth,
otherwise unchanged. -/
def next_cell_rule (cell : Cell) (live_neighbors : Nat) : Cell :=
  if cell = Cell.Alive ∧ live_neighbors < 2 then Cell.Dead
  else if cell = Cell.Alive ∧ (live_neighbors = 2 ∨ live_neighbors = 3) then Cell.Alive
  else if cell = Cell.Alive ∧ 3 < live_neighbors then Cell.Dead
  else if cell = Cell.Dead ∧ live_neighbors = 3 then Cell.Alive
  else cell

/-- `Universe::tick`: clone the buffer into `next`, then for every
`(row, col)` write `next_cell_rule` of the *pre-tick* cell and the
*pre-tick* neighbor count into `next`, and install `next`. -/
def Universe.tick (u : Universe) : Universe :=
  { u with cells := (List.range u.height).foldl (fun next row =>
      (List.range u.width).foldl (fun next col =>
        next.set (u.get_index row col)
          (next_cell_rule (u.cells.getD (u.get_index row col) Cell.Dead)
            (u.live_neighbor_count row col))) next) u.cells }

/-- Formalisation of the spec sentence behind claim C3: "the number of Alive
cells among the 8 toroidally-adjacent positions ((row±1) mod height,
(col±1) mod width combinations computed via (row + height - 1) % height
style wraparound), the cell itself excluded" — the sum of the cell values at
the eight delta combinations drawn from `{height−1, 0, 1} × {width−1, 0, 1}`
with the `(0, 0)` combination removed. -/
def specNeighborCount (u : Universe) (row column : Nat) : Nat :=
  [(u.height - 1, u.width - 1), (u.height - 1, 0), (u.height - 1, 1),
   (0, u.width - 1), (0, 1),
   (1, u.width - 1), (1, 0), (1, 1)].foldl (fun count d =>
    count + (u.cells.getD
      (u.get_index ((row + d.1) % u.height) ((column + d.2) % u.width)) Cell.Dead).toNat) 0

/-- A 3×3 universe whose only `Alive` cell is `(0, 0)` (the configuration of
the spec's toroidal-neighbor-counting test). -/
def sample3 : Universe :=
  ⟨3, 3, [Cell.Alive, Cell.Dead, Cell.Dead,
          Cell.Dead, Cell.Dead, Cell.Dead,
          Cell.Dead, Cell.Dead, Cell.Dead]⟩

/-- A 1×1 universe whose single cell is `Alive`. -/
def one1 : Universe := ⟨1, 1, [Cell.Alive]⟩

/-- A 2×2 all-dead universe. -/
def dead2 : Universe := ⟨2, 2, [Cell.Dead, Cell.Dead, Cell.Dead, Cell.Dead]⟩

/-- A 13×13 all-dead universe (the smallest grid admitting a centered pulsar). -/
def dead13 : Universe := ⟨13, 13, List.replicate 169 Cell.Dead⟩

/-! ## Helper lemmas -/

theorem Cell.toNat_le_one : ∀ c : Cell, c.toNat ≤ 1
  | Cell.Dead => by decide
  | Cell.Alive => by decide

theorem Cell.toggle_toggle : ∀ c : Cell, c.toggle.toggle = c
  | Cell.Dead => rfl
  | Cell.Alive => rfl

theorem Cell.toggle_ne (c : Cell) : c.toggle ≠ c := by cases c <;> decide

/-- Setting an index of a list to the element already there is the identity. -/
theorem set_get_self : ∀ (l : List Cell) (i : Nat) (h : i < l.length),
    l.set i (l.get ⟨i, h⟩) = l
  | _ :: _, 0, _ => rfl
  | a :: l, i + 1, h =>
      congrArg (List.cons a) (set_get_self l i (Nat.lt_of_succ_lt_succ h))

/-- Row-major strides: a strictly later row starts at least a full stride
further along the buffer. -/
theorem mul_row_sep {a b s : Nat} (h : a < b) : a * s + s ≤ b * s := by
  have h1 : (a + 1) * s ≤ b * s := Nat.mul_le_mul_right s (Nat.succ_le_of_lt h)
  rw [Nat.add_mul, Nat.one_mul] at h1
  exact h1

/-- A row-major index of an in-range cell lies inside the buffer. -/
theorem rowmajor_lt {row col h w : Nat} (hr : row < h) (hc : col < w) :
    row * w + col < h * w := by
  have h1 := mul_row_sep (s := w) hr
  omega

/-- Length is preserved by a line-stamping fold. -/
theorem stampLine_length (f : Nat → Nat) (g : Nat → Cell) (init : List Cell) :
    ∀ n, ((List.range n).foldl (fun cs k => cs.set (f k) (g k)) init).length
      = init.length := by
  intro n
  induction n with
  | zero => rfl
  | succ m ih =>
      simp only [List.range_succ, List.foldl_append, List.foldl_cons, List.foldl_nil,
        List.length_set]
      exact ih

/-- After a line-stamping fold with a globally injective index map, the slot
of a stamped column holds its stamped value. -/
theorem stampLine_getElem?_eq (f : Nat → Nat) (g : Nat → Cell)
    (hinj : ∀ b b', f b = f b' → b = b') (init : List Cell) (c : Nat)
    (hlt : f c < init.length) :
    ∀ n, c < n →
      ((List.range n).foldl (fun cs k => cs.set (f k) (g k)) init)[f c]?
        = some (g c) := by
  intro n
  induction n with
  | zero => intro h; omega
  | succ m ih =>
      intro hc
      simp only [List.range_succ, List.foldl_append, List.foldl_cons, List.foldl_nil]
      by_cases hcm : c = m
      · subst hcm
        exact List.getElem?_set_self
          (lt_of_lt_of_eq hlt (stampLine_length f g init c).symm)
      · rw [List.getElem?_set_ne (fun heq => hcm ((hinj m c heq).symm))]
        exact ih (by omega)

/-- A line-stamping fold does not move slots it never writes. -/
theorem stampLine_getElem?_ne (f : Nat → Nat) (g : Nat → Cell) (init : List Cell)
    (i : Nat) :
    ∀ n, (∀ c, c < n → f c ≠ i) →
      ((List.range n).foldl (fun cs k => cs.set (f k) (g k)) init)[i]?
        = init[i]? := by
  intro n
  induction n with
  | zero => intro _; rfl
  | succ m ih =>
      intro hne
      simp only [List.range_succ, List.foldl_append, List.foldl_cons, List.foldl_nil]
      rw [List.getElem?_set_ne (hne m (Nat.lt_succ_self m))]
      exact ih (fun c hc => hne c (by omega))

/-- Length is preserved by a grid-stamping double fold. -/
theorem stampGrid_length (C : Nat) (ix : Nat → Nat → Nat) (g : Nat → Nat → Cell)
    (init : List Cell) :
    ∀ R, ((List.range R).foldl (fun cs a =>
        (List.range C).foldl (fun cs b => cs.set (ix a b) (g a b)) cs) init).length
      = init.length := by
  intro R
  induction R with
  | zero => rfl
  | succ m ih =>
      simp only [List.range_succ, List.foldl_append, List.foldl_cons, List.foldl_nil]
      exact (stampLine_length (fun b => ix m b) (fun b => g m b) _ C).trans ih

/-- After a grid-stamping double fold whose index map is injective in the
column and separates rows, the slot of a stamped cell holds its stamped
value. -/
theorem stampGrid_getElem?_eq (C : Nat) (ix : Nat → Nat → Nat) (g : Nat → Nat → Cell)
    (hinner : ∀ a b b', ix a b = ix a b' → b = b')
    (hrows : ∀ a a' b b', a < a' → b < C → b' < C → ix a' b' ≠ ix a b)
    (init : List Cell) (r c : Nat) (hc : c < C) (hlt : ix r c < init.length) :
    ∀ R, r < R →
      ((List.range R).foldl (fun cs a =>
          (List.range C).foldl (fun cs b => cs.set (ix a b) (g a b)) cs) init)[ix r c]?
        = some (g r c) := by
  intro R
  induction R with
  | zero => intro h; omega
  | succ m ih =>
      intro hr
      simp only [List.range_succ, List.foldl_append, List.foldl_cons, List.foldl_nil]
      by_cases hrm : r = m
      · subst hrm
        exact stampLine_getElem?_eq (fun b => ix r b) (fun b => g r b)
          (fun b b' h => hinner r b b' h) _ c
          (lt_of_lt_of_eq hlt ((stampGrid_length C ix g init r)).symm) C hc
      · have hrm' : r < m := Nat.lt_of_le_of_ne (Nat.le_of_lt_succ hr) hrm
        refine (stampLine_getElem?_ne (fun b => ix m b) (fun b => g m b) _ (ix r c) C
          (fun b hb => hrows r m c b hrm' hc hb)).trans (ih hrm')

/-- Every slot of an all-dead buffer reads `Dead`. -/
theorem getD_dead {l : List Cell} (h : ∀ cl ∈ l, cl = Cell.Dead) :
    ∀ i, l.getD i Cell.Dead = Cell.Dead := by
  intro i
  rw [List.getD_eq_getElem?_getD]
  cases hx : l[i]? with
  | none => rfl
  | some a => exact h a (List.getElem?_mem hx)

/-- The flat index of an in-range cell lies inside a buffer satisfying the
`len(cells) = width * height` invariant. -/
theorem get_index_lt (u : Universe) (hinv : u.cells.length = u.width * u.height)
    {row col : Nat} (hr : row < u.height) (hc : col < u.width) :
    u.get_index row col < u.cells.length := by
  have h1 := rowmajor_lt (w := u.width) hr hc
  have h2 : u.width * u.height = u.height * u.width := Nat.mul_comm _ _
  simp only [Universe.get_index]
  omega

/-- Core `tick` lemma: the post-tick buffer holds, at every in-range cell's
flat index, exactly `next_cell_rule` of the pre-tick cell state and the
pre-tick neighbor count. -/
theorem tick_cells_getElem? (u : Universe) (hinv : u.cells.length = u.width * u.height)
    (row col : Nat) (hr : row < u.height) (hc : col < u.width) :
    (u.tick).cells[u.get_index row col]? =
      some (next_cell_rule (u.cells.getD (u.get_index row col) Cell.Dead)
        (u.live_neighbor_count row col)) := by
  simp only [Universe.tick]
  exact stampGrid_getElem?_eq u.width (fun a b => u.get_index a b)
    (fun a b => next_cell_rule (u.cells.getD (u.get_index a b) Cell.Dead)
      (u.live_neighbor_count a b))
    (fun a b b' h => by simp only [Universe.get_index] at h; omega)
    (fun a a' b b' ha hb hb' => by
      simp only [Universe.get_index]
      have h1 := mul_row_sep (s := u.width) ha
      omega)
    u.cells row col hc (get_index_lt u hinv hr hc) u.height hr

/-- `tick` preserves the buffer length. -/
theorem tick_cells_length (u : Universe) : (u.tick).cells.length = u.cells.length := by
  simp only [Universe.tick]
  exact stampGrid_length u.width (fun a b => u.get_index a b)
    (fun a b => next_cell_rule (u.cells.getD (u.get_index a b) Cell.Dead)
      (u.live_neighbor_count a b)) u.cells u.height

/-- C1: on every universe with positive dimensions and a well-formed buffer,
`tick` leaves the dimensions and buffer length unchanged and gives every
in-range cell `(row, col)` the state dictated by the four Life rules — Dead
on underpopulation (alive, fewer than 2 live neighbors), Alive on stability
(alive, 2 or 3), Dead on overpopulation (alive, more than 3), Alive on birth
(dead, exactly 3), otherwise the unchanged pre-tick state.  Both the cell
state and the neighbor count on the right-hand side are read from the
pre-tick universe `u`, so the whole generation advances simultaneously and
no update observes a post-tick value. -/
theorem tick_spec (u : Universe) (hw : 1 ≤ u.width) (hh : 1 ≤ u.height)
    (hinv : u.cells.length = u.width * u.height) :
    (u.tick).width = u.width ∧ (u.tick).height = u.height ∧
    (u.tick).cells.length = u.cells.length ∧
    ∀ row col, row < u.height → col < u.width →
      ((u.cells.getD (u.get_index row col) Cell.Dead = Cell.Alive →
          (u.live_neighbor_count row col < 2 →
            (u.tick).cells[u.get_index row col]? = some Cell.Dead) ∧
          ((u.live_neighbor_count row col = 2 ∨ u.live_neighbor_count row col = 3) →
            (u.tick).cells[u.get_index row col]? = some Cell.Alive) ∧
          (3 < u.live_neighbor_count row col →
            (u.tick).cells[u.get_index row col]? = some Cell.Dead)) ∧
       (u.cells.getD (u.get_index row col) Cell.Dead = Cell.Dead →
          (u.live_neighbor_count row col = 3 →
            (u.tick).cells[u.get_index row col]? = some Cell.Alive) ∧
          (u.live_neighbor_count row col ≠ 3 →
            (u.tick).cells[u.get_index row col]? = some Cell.Dead))) := by
  refine ⟨rfl, rfl, tick_cells_length u, ?_⟩
  intro row col hr hc
  have hkey := tick_cells_getElem? u hinv row col hr hc
  constructor
  · intro hcell
    refine ⟨fun hn => ?_, fun hn => ?_, fun hn => ?_⟩
    · rw [hkey, hcell]
      simp [next_cell_rule, hn]
    · rw [hkey, hcell]
      rcases hn with hn | hn <;> rw [hn] <;> simp [next_cell_rule]
    · have h1 : ¬ u.live_neighbor_count row col < 2 := by omega
      have h2 : ¬ u.live_neighbor_count row col = 2 := by omega
      have h3 : ¬ u.live_neighbor_count row col = 3 := by omega
      rw [hkey, hcell]
      simp [next_cell_rule, h1, h2, h3, hn]
  · intro hcell
    refine ⟨fun hn => ?_, fun hn => ?_⟩
    · rw [hkey, hcell, hn]
      simp [next_cell_rule]
    · rw [hkey, hcell]
      simp [next_cell_rule, hn]

/-- Witness for C1 at the 3×3 sample: the lone live corner has 0 live
neighbors and dies of underpopulation. -/
theorem tick_spec_witness :
    (sample3.tick).cells[sample3.get_index 0 0]? = some Cell.Dead :=
  (((tick_spec sample3 (by decide) (by decide) (by decide)).2.2.2 0 0
    (by decide) (by decide)).1 (by decide)).1 (by decide)

/-- On an all-dead universe every neighbor count is 0. -/
theorem live_neighbor_count_dead (u : Universe)
    (hdead : ∀ cl ∈ u.cells, cl = Cell.Dead) (row col : Nat) :
    u.live_neighbor_count row col = 0 := by
  have h : ∀ i : Nat, u.cells[i]?.getD Cell.Dead = Cell.Dead := by
    intro i
    rw [← List.getD_eq_getElem?_getD]
    exact getD_dead hdead i
  simp [Universe.live_neighbor_count, h, Cell.toNat]

/-- A line-stamping fold that only writes `Dead` into an all-dead buffer
leaves it all dead. -/
theorem stampLine_mem_dead (f : Nat → Nat) (g : Nat → Cell)
    (hg : ∀ b, g b = Cell.Dead) (init : List Cell)
    (hd : ∀ cl ∈ init, cl = Cell.Dead) :
    ∀ n, ∀ cl ∈ ((List.range n).foldl (fun cs k => cs.set (f k) (g k)) init),
      cl = Cell.Dead := by
  intro n
  induction n with
  | zero => exact hd
  | succ m ih =>
      simp only [List.range_succ, List.foldl_append, List.foldl_cons, List.foldl_nil]
      intro cl hcl
      rcases List.mem_or_eq_of_mem_set hcl with h | h
      · exact ih cl h
      · exact h.trans (hg m)

/-- A grid-stamping fold that only writes `Dead` into an all-dead buffer
leaves it all dead. -/
theorem stampGrid_mem_dead (C : Nat) (ix : Nat → Nat → Nat) (g : Nat → Nat → Cell)
    (hg : ∀ a b, g a b = Cell.Dead) (init : List Cell)
    (hd : ∀ cl ∈ init, cl = Cell.Dead) :
    ∀ R, ∀ cl ∈ ((List.range R).foldl (fun cs a =>
        (List.range C).foldl (fun cs b => cs.set (ix a b) (g a b)) cs) init),
      cl = Cell.Dead := by
  intro R
  induction R with
  | zero => exact hd
  | succ m ih =>
      simp only [List.range_succ, List.foldl_append, List.foldl_cons, List.foldl_nil]
      exact stampLine_mem_dead (fun b => ix m b) (fun b => g m b) (fun b => hg m b) _ ih C

/-- `tick` maps an all-dead universe to an all-dead universe. -/
theorem tick_all_dead (u : Universe) (hdead : ∀ cl ∈ u.cells, cl = Cell.Dead) :
    ∀ cl ∈ (u.tick).cells, cl = Cell.Dead := by
  simp only [Universe.tick]
  exact stampGrid_mem_dead u.width (fun a b => u.get_index a b)
    (fun a b => next_cell_rule (u.cells.getD (u.get_index a b) Cell.Dead)
      (u.live_neighbor_count a b))
    (fun a b => by
      show next_cell_rule (u.cells.getD (u.get_index a b) Cell.Dead)
        (u.live_neighbor_count a b) = Cell.Dead
      rw [getD_dead hdead, live_neighbor_count_dead u hdead]
      decide)
    u.cells hdead u.height

/-- C10: the all-dead grid is a fixed point of `tick` — every iterate of
`tick` on an all-dead universe is all dead, and in particular `kill_all`
followed by any number of `tick` calls keeps every cell dead. -/
theorem dead_universe_fixed (u : Universe) (hw : 1 ≤ u.width) (hh : 1 ≤ u.height)
    (hdead : ∀ cl ∈ u.cells, cl = Cell.Dead) :
    (∀ n, ∀ cl ∈ (Universe.tick^[n] u).cells, cl = Cell.Dead) ∧
    (∀ n, ∀ cl ∈ (Universe.tick^[n] u.kill_all).cells, cl = Cell.Dead) := by
  have hiter : ∀ (v : Universe), (∀ cl ∈ v.cells, cl = Cell.Dead) →
      ∀ n, ∀ cl ∈ (Universe.tick^[n] v).cells, cl = Cell.Dead := by
    intro v hv n
    induction n with
    | zero => simpa using hv
    | succ m ih =>
        rw [Function.iterate_succ_apply']
        exact tick_all_dead _ ih
  refine ⟨hiter u hdead, hiter u.kill_all ?_⟩
  intro cl hcl
  simp only [Universe.kill_all] at hcl
  rcases List.mem_map.1 hcl with ⟨a, _, ha⟩
  exact ha.symm

/-- Witness for C10: two ticks of the all-dead 2×2 grid still read `Dead`. -/
theorem dead_universe_fixed_witness :
    (Universe.tick^[2] dead2).cells.getD 0 Cell.Dead = Cell.Dead :=
  getD_dead ((dead_universe_fixed dead2 (by decide) (by decide) (by decide)).1 2) 0

/-- C2: `new()` yields a 64×64 universe whose buffer has length 64·64 and
holds, at every linear index `i`, `Alive` exactly when `i % 2 = 0` or
`i % 7 = 0`; in particular indices 0, 2, 6, 7, 8, 14, 63 are `Alive` and
index 1 is `Dead`. -/
theorem new_seed :
    Universe.new.width = 64 ∧ Universe.new.height = 64 ∧
    Universe.new.cells.length = 64 * 64 ∧
    (∀ i, i < 64 * 64 → Universe.new.cells[i]? =
      some (if i % 2 = 0 ∨ i % 7 = 0 then Cell.Alive else Cell.Dead)) ∧
    Universe.new.cells[0]? = some Cell.Alive ∧
    Universe.new.cells[1]? = some Cell.Dead ∧
    Universe.new.cells[2]? = some Cell.Alive ∧
    Universe.new.cells[6]? = some Cell.Alive ∧
    Universe.new.cells[7]? = some Cell.Alive ∧
    Universe.new.cells[8]? = some Cell.Alive ∧
    Universe.new.cells[14]? = some Cell.Alive ∧
    Universe.new.cells[63]? = some Cell.Alive := by
  have key : ∀ i, i < 64 * 64 → Universe.new.cells[i]? =
      some (if i % 2 = 0 ∨ i % 7 = 0 then Cell.Alive else Cell.Dead) := by
    intro i hi
    simp only [Universe.new]
    rw [List.getElem?_map, List.getElem?_range hi]
    rfl
  refine ⟨rfl, rfl, ?_, key, ?_, ?_, ?_, ?_, ?_, ?_, ?_, ?_⟩
  · simp only [Universe.new]
    rw [List.length_map, List.length_range]
  · simpa using key 0 (by norm_num)
  · simpa using key 1 (by norm_num)
  · simpa using key 2 (by norm_num)
  · simpa using key 6 (by norm_num)
  · simpa using key 7 (by norm_num)
  · simpa using key 8 (by norm_num)
  · simpa using key 14 (by norm_num)
  · simpa using key 63 (by norm_num)

/-- Witness for C2: index 63 of the seed is `Alive` (63 % 7 = 0). -/
theorem new_seed_witness : Universe.new.cells[63]? = some Cell.Alive :=
  new_seed.2.2.2.2.2.2.2.2.2.2.2

theorem sum5_le_eight (t1 t2 t3 t4 t5 : Nat) (h1 : t1 ≤ 1) (h2 : t2 ≤ 1)
    (h3 : t3 ≤ 1) (h4 : t4 ≤ 1) (h5 : t5 ≤ 1) :
    t1 + t2 + t3 + t4 + t5 ≤ 8 := by omega

theorem sum7_le_eight (t1 t2 t3 t4 t5 t6 t7 : Nat) (h1 : t1 ≤ 1) (h2 : t2 ≤ 1)
    (h3 : t3 ≤ 1) (h4 : t4 ≤ 1) (h5 : t5 ≤ 1) (h6 : t6 ≤ 1) (h7 : t7 ≤ 1) :
    t1 + t2 + t3 + t4 + t5 + t6 + t7 ≤ 8 := by omega

theorem sum8_le_eight (t1 t2 t3 t4 t5 t6 t7 t8 : Nat) (h1 : t1 ≤ 1) (h2 : t2 ≤ 1)
    (h3 : t3 ≤ 1) (h4 : t4 ≤ 1) (h5 : t5 ≤ 1) (h6 : t6 ≤ 1) (h7 : t7 ≤ 1)
    (h8 : t8 ≤ 1) :
    t1 + t2 + t3 + t4 + t5 + t6 + t7 + t8 ≤ 8 := by omega

/-- C3 (amended): `live_neighbor_count` always returns a value in `[0, 8]`,
and on every universe with both dimensions at least 2 it equals the sum of
the cell values at the 8 toroidally-adjacent delta combinations
(`specNeighborCount`).  On a 1-wide or 1-tall universe the two quantities
differ, because the value-based skip of the `(0, 0)` delta also skips the
duplicated wraparound deltas (see `live_neighbor_claim_cex`). -/
theorem live_neighbor_spec (u : Universe) (hw : 1 ≤ u.width) (hh : 1 ≤ u.height)
    (row col : Nat) (hr : row < u.height) (hc : col < u.width) :
    u.live_neighbor_count row col ≤ 8 ∧
    (2 ≤ u.width → 2 ≤ u.height →
      u.live_neighbor_count row col = specNeighborCount u row col) := by
  constructor
  · by_cases h1 : u.height - 1 = 0 <;> by_cases h2 : u.width - 1 = 0 <;>
      simp only [Universe.live_neighbor_count, List.foldl_cons, List.foldl_nil, h1, h2] <;>
      simp [h1, h2] <;>
      first
      | exact sum5_le_eight _ _ _ _ _ (Cell.toNat_le_one _) (Cell.toNat_le_one _)
          (Cell.toNat_le_one _) (Cell.toNat_le_one _) (Cell.toNat_le_one _)
      | exact sum7_le_eight _ _ _ _ _ _ _ (Cell.toNat_le_one _) (Cell.toNat_le_one _)
          (Cell.toNat_le_one _) (Cell.toNat_le_one _) (Cell.toNat_le_one _)
          (Cell.toNat_le_one _) (Cell.toNat_le_one _)
      | exact sum8_le_eight _ _ _ _ _ _ _ _ (Cell.toNat_le_one _) (Cell.toNat_le_one _)
          (Cell.toNat_le_one _) (Cell.toNat_le_one _) (Cell.toNat_le_one _)
          (Cell.toNat_le_one _) (Cell.toNat_le_one _) (Cell.toNat_le_one _)
  · intro hw2 hh2
    have h1 : u.height - 1 ≠ 0 := by omega
    have h2 : u.width - 1 ≠ 0 := by omega
    simp only [Universe.live_neighbor_count, specNeighborCount,
      List.foldl_cons, List.foldl_nil]
    simp [h1, h2]

/-- Counterexample for C3 as stated: on the 1×1 universe with its single
cell alive, the code counts 5 (four of the nine delta pairs collapse to the
skipped value `(0, 0)`), while the 8-delta-combination count of the spec
sentence is 8. -/
theorem live_neighbor_claim_cex :
    one1.live_neighbor_count 0 0 = 5 ∧ specNeighborCount one1 0 0 = 8 ∧
    one1.live_neighbor_count 0 0 ≠ specNeighborCount one1 0 0 := by decide

/-- Witness for C3 (amended) at the 3×3 sample universe. -/
theorem live_neighbor_spec_witness :
    sample3.live_neighbor_count 2 2 ≤ 8 ∧
    sample3.live_neighbor_count 2 2 = specNeighborCount sample3 2 2 := by
  have h := live_neighbor_spec sample3 (by decide) (by decide) 2 2 (by decide) (by decide)
  exact ⟨h.1, h.2 (by decide) (by decide)⟩

/-- Counterexample for C4 as stated: on the 3×3 grid with the single live
cell at `(0, 0)`, `live_neighbor_count(1, 1)` is 1, not 0 — the center of a
3×3 torus is adjacent to every other cell, including `(0, 0)`. -/
theorem toroidal_count_claim_cex :
    ¬ (sample3.live_neighbor_count 2 2 = 1 ∧ sample3.live_neighbor_count 1 1 = 0) := by
  decide

/-- C4 (amended): on the 3×3 universe with the single live cell `(0, 0)`,
`live_neighbor_count(2, 2) = 1` (diagonal wrap neighbor) and
`live_neighbor_count(1, 1) = 1` (the center is directly adjacent to
`(0, 0)`). -/
theorem toroidal_count_amended :
    sample3.live_neighbor_count 2 2 = 1 ∧ sample3.live_neighbor_count 1 1 = 1 := by
  decide

/-- `l.set i l[i] = l`, the `getElem` form of `set_get_self`. -/
theorem set_getElem_self (l : List Cell) (i : Nat) (h : i < l.length) :
    l.set i l[i] = l := by
  have h1 := set_get_self l i h
  rwa [List.get_eq_getElem] at h1

/-- `toggle_cell` on an in-range index succeeds and sets the toggled cell. -/
theorem toggle_cell_eq (u : Universe) (row column : Nat)
    (h : u.get_index row column < u.cells.length) :
    u.toggle_cell row column = some { u with cells :=
      (u.cells.set (u.get_index row column)
        (u.cells.get ⟨u.get_index row column, h⟩).toggle) } := by
  simp only [Universe.toggle_cell]
  rw [dif_pos h]

/-- C9: toggling an in-range cell `(r, c)` succeeds, flips exactly that
cell (its stored state changes to its toggle, every other slot and both
dimensions are untouched), and toggling the same cell again restores the
original universe. -/
theorem toggle_cell_spec (u : Universe) (r c : Nat)
    (hinv : u.cells.length = u.width * u.height) (hr : r < u.height)
    (hc : c < u.width) :
    ∃ u', u.toggle_cell r c = some u' ∧
      u'.width = u.width ∧ u'.height = u.height ∧
      u'.cells.length = u.cells.length ∧
      u'.cells[u.get_index r c]? =
        some (u.cells.getD (u.get_index r c) Cell.Dead).toggle ∧
      u'.cells[u.get_index r c]? ≠ u.cells[u.get_index r c]? ∧
      (∀ j, j ≠ u.get_index r c → u'.cells[j]? = u.cells[j]?) ∧
      u'.toggle_cell r c = some u := by
  obtain ⟨w, h, cs⟩ := u
  simp only [Universe.get_index] at hr hc ⊢
  have hidx : r * w + c < cs.length := by
    have h1 := rowmajor_lt (w := w) hr hc
    have h2 : w * h = h * w := Nat.mul_comm w h
    simp only at hinv
    omega
  refine ⟨⟨w, h, cs.set (r * w + c) (cs.get ⟨r * w + c, hidx⟩).toggle⟩,
    ?_, rfl, rfl, ?_, ?_, ?_, ?_, ?_⟩
  · simp only [Universe.toggle_cell, Universe.get_index]
    rw [dif_pos hidx]
  · simp
  · simp only [List.getElem?_set_self hidx]
    rw [List.getD_eq_getElem?_getD, List.getElem?_eq_getElem hidx]
    simp [List.get_eq_getElem]
  · rw [List.getElem?_set_self hidx, List.getElem?_eq_getElem hidx]
    simp only [List.get_eq_getElem, ne_eq, Option.some.injEq]
    exact Cell.toggle_ne _
  · intro j hj
    exact List.getElem?_set_ne (Ne.symm hj)
  · rw [toggle_cell_eq ⟨w, h, cs.set (r * w + c) (cs.get ⟨r * w + c, hidx⟩).toggle⟩ r c
      (by simp only [Universe.get_index, List.length_set]; exact hidx)]
    simp only [Option.some.injEq, Universe.mk.injEq, Universe.get_index, true_and]
    simp only [List.get_eq_getElem, List.getElem_set_self, List.set_set,
      Cell.toggle_toggle]
    exact set_getElem_self cs (r * w + c) hidx

/-- Witness for C9: toggling the center of the 3×3 sample twice restores it. -/
theorem toggle_cell_spec_witness :
    ∃ u', sample3.toggle_cell 1 1 = some u' ∧ u'.toggle_cell 1 1 = some sample3 := by
  obtain ⟨u', h1, _, _, _, _, _, _, h8⟩ :=
    toggle_cell_spec sample3 1 1 (by decide) (by decide) (by decide)
  exact ⟨u', h1, h8⟩

/-- `set_cells` fails with the index panic whenever some listed pair has
`row ≥ height` (under the buffer-length invariant such a pair's flat index
always falls outside the buffer). -/
theorem set_cells_oob_none : ∀ (ps : List (Nat × Nat)) (u : Universe),
    u.cells.length = u.width * u.height → (∃ p ∈ ps, u.height ≤ p.1) →
    u.set_cells ps = none := by
  intro ps
  induction ps with
  | nil => intro u _ hex; simp at hex
  | cons q rest ih =>
      intro u hinv hex
      simp only [Universe.set_cells, List.foldlM_cons]
      by_cases hq : u.get_index q.1 q.2 < u.cells.length
      · rw [if_pos hq]
        rcases hex with ⟨p, hp, hph⟩
        rcases List.mem_cons.1 hp with hqp | hrest
        · exfalso
          have h1 : u.height * u.width ≤ q.1 * u.width := by
            apply Nat.mul_le_mul_right
            rw [hqp] at hph
            exact hph
          have h2 : u.width * u.height = u.height * u.width := Nat.mul_comm _ _
          simp only [Universe.get_index] at hq
          omega
        · exact ih { u with cells := u.cells.set (u.get_index q.1 q.2) Cell.Alive }
            (by simpa using hinv) ⟨p, hrest, hph⟩
      · rw [if_neg hq]
        rfl

/-- C8 (amended): a `toggle_cell` whose row is out of range (`row ≥ height`)
always hits the out-of-bounds panic, and so does a `set_cells` whose list
contains a pair with an out-of-range row; but an out-of-range *column*
whose flat index `row*width + col` still lands inside the buffer instead
completes a mutation of the aliased cell (see `oob_mutation_claim_cex`). -/
theorem oob_mutation_behavior (u : Universe)
    (hinv : u.cells.length = u.width * u.height) (row col : Nat)
    (hrow : u.height ≤ row) (ps : List (Nat × Nat))
    (hps : ∃ p ∈ ps, u.height ≤ p.1) :
    u.toggle_cell row col = none ∧ u.set_cells ps = none := by
  constructor
  · have hn : ¬ u.get_index row col < u.cells.length := by
      have h1 : u.height * u.width ≤ row * u.width := Nat.mul_le_mul_right _ hrow
      have h2 : u.width * u.height = u.height * u.width := Nat.mul_comm _ _
      simp only [Universe.get_index]
      omega
    simp only [Universe.toggle_cell]
    rw [dif_neg hn]
  · exact set_cells_oob_none ps u hinv hps

/-- Counterexample for C8 as stated: on the 2×2 all-dead universe, the
out-of-range call `toggle_cell(0, 2)` (col ≥ width) does not fault — its
flat index 2 aliases the in-range cell `(1, 0)`, which gets mutated; the
same holds for `set_cells [(0, 2)]`. -/
theorem oob_mutation_claim_cex :
    dead2.toggle_cell 0 2 =
      some ⟨2, 2, [Cell.Dead, Cell.Dead, Cell.Alive, Cell.Dead]⟩ ∧
    dead2.set_cells [(0, 2)] =
      some ⟨2, 2, [Cell.Dead, Cell.Dead, Cell.Alive, Cell.Dead]⟩ := by
  decide

/-- Witness for C8 (amended): a row past the 2×2 grid's height faults. -/
theorem oob_mutation_behavior_witness :
    dead2.toggle_cell 5 0 = none ∧ dead2.set_cells [(5, 0)] = none :=
  oob_mutation_behavior dead2 (by decide) 5 0 (by decide) [(5, 0)] (by decide)

/-- C7: `set_width` updates the width, keeps the height, and reallocates an
all-dead buffer of length `w * height`; `set_height` symmetrically; and
`kill_all` reallocates an all-dead buffer of length `width * height` at the
unchanged dimensions.  No old cell content survives — every cell of the new
buffer is `Dead`. -/
theorem resize_and_clear (u : Universe) (w h : Nat) :
    ((u.set_width w).width = w ∧ (u.set_width w).height = u.height ∧
      (u.set_width w).cells.length = w * u.height ∧
      ∀ cl ∈ (u.set_width w).cells, cl = Cell.Dead) ∧
    ((u.set_height h).width = u.width ∧ (u.set_height h).height = h ∧
      (u.set_height h).cells.length = u.width * h ∧
      ∀ cl ∈ (u.set_height h).cells, cl = Cell.Dead) ∧
    ((u.kill_all).width = u.width ∧ (u.kill_all).height = u.height ∧
      (u.kill_all).cells.length = u.width * u.height ∧
      ∀ cl ∈ (u.kill_all).cells, cl = Cell.Dead) := by
  refine ⟨⟨rfl, rfl, ?_, ?_⟩, ⟨rfl, rfl, ?_, ?_⟩, ⟨rfl, rfl, ?_, ?_⟩⟩
  · simp [Universe.set_width]
  · intro cl hcl
    simp only [Universe.set_width] at hcl
    rcases List.mem_map.1 hcl with ⟨a, _, ha⟩
    exact ha.symm
  · simp [Universe.set_height]
  · intro cl hcl
    simp only [Universe.set_height] at hcl
    rcases List.mem_map.1 hcl with ⟨a, _, ha⟩
    exact ha.symm
  · simp [Universe.kill_all]
  · intro cl hcl
    simp only [Universe.kill_all] at hcl
    rcases List.mem_map.1 hcl with ⟨a, _, ha⟩
    exact ha.symm

/-- Witness for C7: resizing the seed universe to width 3 gives a buffer of
3·64 cells. -/
theorem resize_and_clear_witness :
    (Universe.new.set_width 3).cells.length = 3 * Universe.new.height :=
  (resize_and_clear Universe.new 3 0).1.2.2.1

/-- `get_row` recovers the row of an in-range flat index. -/
theorem get_row_get_index (u : Universe) (row col : Nat) (hc : col < u.width) :
    u.get_row (u.get_index row col) = row := by
  simp only [Universe.get_row, Universe.get_index]
  have hw : 0 < u.width := by omega
  have e : row * u.width + col = col + u.width * row := by ring
  rw [e, Nat.add_mul_div_left _ _ hw, Nat.div_eq_of_lt hc, Nat.zero_add]

/-- `get_col` recovers the column of an in-range flat index. -/
theorem get_col_get_index (u : Universe) (row col : Nat) (hc : col < u.width) :
    u.get_col (u.get_index row col) = col := by
  simp only [Universe.get_col, Universe.get_index]
  have e : row * u.width + col = col + u.width * row := by ring
  rw [e, Nat.add_mul_mod_self_left, Nat.mod_eq_of_lt hc]

set_option maxHeartbeats 1000000 in
/-- C5: stamping a pulsar at an anchor at least 6 cells from every edge
overwrites the 13×13 box whose top-left corner is `(row − 6, col − 6)` —
so the pattern is centered on the anchor — with exactly the fixed pulsar
pattern `pulsarCell` (local rows 1/6/11 dead; local rows 0/5/7/12 alive
exactly at local columns 2–4 and 8–10; the remaining rows alive exactly at
local columns 0/5/7/12), regardless of the box's prior contents, and the
fixed pattern has exactly 48 alive cells.  Dimensions and buffer length
are unchanged. -/
theorem add_pulsar_box (u : Universe) (row col : Nat)
    (hinv : u.cells.length = u.width * u.height)
    (hr6 : 6 ≤ row) (hc6 : 6 ≤ col)
    (hr7 : row + 7 ≤ u.height) (hc7 : col + 7 ≤ u.width) :
    (u.add_pulsar row col).width = u.width ∧
    (u.add_pulsar row col).height = u.height ∧
    (u.add_pulsar row col).cells.length = u.cells.length ∧
    (∀ r c, r < 13 → c < 13 →
      (u.add_pulsar row col).cells[u.get_index (row - 6 + r) (col - 6 + c)]? =
        some (pulsarCell r c)) ∧
    (List.range 13).foldl (fun a r =>
      (List.range 13).foldl (fun a c => a + (pulsarCell r c).toNat) a) 0 = 48 := by
  have h13 : 13 ≤ u.width := by omega
  refine ⟨?_, ?_, ?_, ?_, by decide⟩
  · simp only [Universe.add_pulsar, Universe.gen_pulsar]
  · simp only [Universe.add_pulsar, Universe.gen_pulsar]
  · simp only [Universe.add_pulsar, Universe.gen_pulsar]
    rw [get_row_get_index u row col (by omega), get_col_get_index u row col (by omega)]
    exact stampGrid_length 13
      (fun a b => u.get_index (row - 6) (col - 6) + a * u.width + b)
      (fun a b => pulsarCell a b) u.cells 13
  · intro r c hrr hcc
    simp only [Universe.add_pulsar, Universe.gen_pulsar]
    rw [get_row_get_index u row col (by omega), get_col_get_index u row col (by omega)]
    have heq : u.get_index (row - 6 + r) (col - 6 + c) =
        u.get_index (row - 6) (col - 6) + r * u.width + c := by
      simp only [Universe.get_index, Nat.add_mul]
      omega
    rw [heq]
    have hinner : ∀ a b b',
        u.get_index (row - 6) (col - 6) + a * u.width + b =
          u.get_index (row - 6) (col - 6) + a * u.width + b' → b = b' := by
      intro a b b' hab
      omega
    have hrows : ∀ a a' b b', a < a' → b < 13 → b' < 13 →
        u.get_index (row - 6) (col - 6) + a' * u.width + b' ≠
          u.get_index (row - 6) (col - 6) + a * u.width + b := by
      intro a a' b b' ha hb hb' habs
      have h1 := mul_row_sep (s := u.width) ha
      omega
    have hlt : u.get_index (row - 6) (col - 6) + r * u.width + c < u.cells.length := by
      rw [← heq]
      exact get_index_lt u hinv (by omega) (by omega)
    exact stampGrid_getElem?_eq 13
      (fun a b => u.get_index (row - 6) (col - 6) + a * u.width + b)
      (fun a b => pulsarCell a b) hinner hrows u.cells r c hcc hlt 13 hrr

/-- Witness for C5 on the all-dead 13×13 grid with the anchor at its
center: the top-left box row holds the pattern (alive at local column 2). -/
theorem add_pulsar_box_witness :
    (dead13.add_pulsar 6 6).cells[dead13.get_index 0 2]? = some (pulsarCell 0 2) ∧
    pulsarCell 0 2 = Cell.Alive :=
  ⟨(add_pulsar_box dead13 6 6 (by decide) (by decide) (by decide) (by decide)
      (by decide)).2.2.2.1 0 2 (by decide) (by decide), by decide⟩

/-- Unfolding of `set_cells` on an in-range head pair. -/
theorem set_cells_cons_pos (u : Universe) (p : Nat × Nat) (ps : List (Nat × Nat))
    (h : u.get_index p.1 p.2 < u.cells.length) :
    u.set_cells (p :: ps) =
      Universe.set_cells
        { u with cells := u.cells.set (u.get_index p.1 p.2) Cell.Alive } ps := by
  simp only [Universe.set_cells, List.foldlM_cons]
  rw [if_pos h]
  rfl

/-- `set_cells` of the empty list is the identity. -/
theorem set_cells_nil (u : Universe) : u.set_cells [] = some u := rfl

/-- C6: stamping a spaceship whose five target cells are all in range
succeeds, forces exactly the five offsets `(r+1,c+2)`, `(r+2,c+3)`,
`(r+3,c+1)`, `(r+3,c+2)`, `(r+3,c+3)` to `Alive`, and leaves every other
slot of the buffer — and both dimensions — unchanged. -/
theorem add_spaceship_spec (u : Universe) (r c : Nat)
    (hinv : u.cells.length = u.width * u.height)
    (hr : r + 3 < u.height) (hc : c + 3 < u.width) :
    ∃ u', u.add_spaceship r c = some u' ∧
      u'.width = u.width ∧ u'.height = u.height ∧
      u'.cells.length = u.cells.length ∧
      (u'.cells[u.get_index (r + 1) (c + 2)]? = some Cell.Alive ∧
       u'.cells[u.get_index (r + 2) (c + 3)]? = some Cell.Alive ∧
       u'.cells[u.get_index (r + 3) (c + 1)]? = some Cell.Alive ∧
       u'.cells[u.get_index (r + 3) (c + 2)]? = some Cell.Alive ∧
       u'.cells[u.get_index (r + 3) (c + 3)]? = some Cell.Alive) ∧
      (∀ j, j ≠ u.get_index (r + 1) (c + 2) → j ≠ u.get_index (r + 2) (c + 3) →
            j ≠ u.get_index (r + 3) (c + 1) → j ≠ u.get_index (r + 3) (c + 2) →
            j ≠ u.get_index (r + 3) (c + 3) → u'.cells[j]? = u.cells[j]?) := by
  have hmul : u.width * u.height = u.height * u.width := Nat.mul_comm _ _
  have hw4 : 4 ≤ u.width := by omega
  have hl1 : (r + 1) * u.width + (c + 2) < u.cells.length := by
    have h1 := rowmajor_lt (show r + 1 < u.height by omega) (show c + 2 < u.width by omega)
    omega
  have hl2 : (r + 2) * u.width + (c + 3) < u.cells.length := by
    have h1 := rowmajor_lt (show r + 2 < u.height by omega) (show c + 3 < u.width by omega)
    omega
  have hl3 : (r + 3) * u.width + (c + 1) < u.cells.length := by
    have h1 := rowmajor_lt (show r + 3 < u.height by omega) (show c + 1 < u.width by omega)
    omega
  have hl4 : (r + 3) * u.width + (c + 2) < u.cells.length := by
    have h1 := rowmajor_lt (show r + 3 < u.height by omega) (show c + 2 < u.width by omega)
    omega
  have hl5 : (r + 3) * u.width + (c + 3) < u.cells.length := by
    have h1 := rowmajor_lt (show r + 3 < u.height by omega) (show c + 3 < u.width by omega)
    omega
  have A1 : (r + 2) * u.width = (r + 1) * u.width + u.width := by ring
  have A2 : (r + 3) * u.width = (r + 1) * u.width + 2 * u.width := by ring
  have A3 : (r + 3) * u.width = (r + 2) * u.width + u.width := by ring
  simp only [Universe.get_index]
  refine ⟨⟨u.width, u.height,
    (((((u.cells.set ((r + 1) * u.width + (c + 2)) Cell.Alive).set
        ((r + 2) * u.width + (c + 3)) Cell.Alive).set
        ((r + 3) * u.width + (c + 1)) Cell.Alive).set
        ((r + 3) * u.width + (c + 2)) Cell.Alive).set
        ((r + 3) * u.width + (c + 3)) Cell.Alive)⟩,
    ?_, rfl, rfl, ?_, ⟨?_, ?_, ?_, ?_, ?_⟩, ?_⟩
  · show Universe.set_cells u [(r + 1, c + 2), (r + 2, c + 3),
      (r + 3, c + 1), (r + 3, c + 2), (r + 3, c + 3)] = _
    rw [set_cells_cons_pos u _ _
        (by simp only [Universe.get_index]; exact hl1),
      set_cells_cons_pos _ _ _
        (by simp only [Universe.get_index, List.length_set]; exact hl2),
      set_cells_cons_pos _ _ _
        (by simp only [Universe.get_index, List.length_set]; exact hl3),
      set_cells_cons_pos _ _ _
        (by simp only [Universe.get_index, List.length_set]; exact hl4),
      set_cells_cons_pos _ _ _
        (by simp only [Universe.get_index, List.length_set]; exact hl5),
      set_cells_nil]
    rfl
  · simp
  · rw [List.getElem?_set_ne (by omega), List.getElem?_set_ne (by omega),
      List.getElem?_set_ne (by omega), List.getElem?_set_ne (by omega)]
    exact List.getElem?_set_self hl1
  · rw [List.getElem?_set_ne (by omega), List.getElem?_set_ne (by omega),
      List.getElem?_set_ne (by omega)]
    exact List.getElem?_set_self (by simpa using hl2)
  · rw [List.getElem?_set_ne (by omega), List.getElem?_set_ne (by omega)]
    exact List.getElem?_set_self (by simpa using hl3)
  · rw [List.getElem?_set_ne (by omega)]
    exact List.getElem?_set_self (by simpa using hl4)
  · exact List.getElem?_set_self (by simpa using hl5)
  · intro j h1' h2' h3' h4' h5'
    rw [List.getElem?_set_ne (Ne.symm h5'), List.getElem?_set_ne (Ne.symm h4'),
      List.getElem?_set_ne (Ne.symm h3'), List.getElem?_set_ne (Ne.symm h2'),
      List.getElem?_set_ne (Ne.symm h1')]

/-- Witness for C6: stamping a spaceship at `(0, 0)` of the all-dead 13×13
grid makes `(1, 2)` alive. -/
theorem add_spaceship_spec_witness :
    ∃ u', dead13.add_spaceship 0 0 = some u' ∧
      u'.cells[dead13.get_index 1 2]? = some Cell.Alive := by
  obtain ⟨u', he, _, _, _, hfive, _⟩ :=
    add_spaceship_spec dead13 0 0 (by decide) (by decide) (by decide)
  exact ⟨u', he, hfive.1⟩

end GameOfLife
